import Mathlib

/-!
Verification of the snp5000 scoring-and-caching engine.

Shallow embedding of the rating engine (`services/rating_service.py` and
`services/macro_service.py`) in Lean 4.  Python floats are modelled as exact
rationals (ℚ): every literal appearing in the scoring rules (0.25, 1.5, 0.05,
…) is used exactly, and all verified statements concern branch selection,
ranges and piecewise-linear arithmetic where binary rounding of IEEE doubles
is immaterial.  Optional / nullable float values are modelled as `Option ℚ`;
Python truthiness (`if x:` on an optional float) is `pyTruthy`, which is
false exactly on `None` and `0.0`.
-/

/-- Python truthiness of an optional float: `None` and `0.0` are falsy. -/
def pyTruthy (x : Option ℚ) : Bool := decide (x.getD 0 ≠ 0)

/-- Python 3 `round` to an integer: round half to even (banker's rounding),
    on the exact rational value. -/
def pyRoundInt (x : ℚ) : ℤ :=
  let n := ⌊x⌋
  let frac := x - n
  if frac < 1/2 then n
  else if 1/2 < frac then n + 1
  else if n % 2 = 0 then n else n + 1

/-- Python `round(x, 2)`: round to two decimal places, half to even. -/
def round2 (x : ℚ) : ℚ := (pyRoundInt (x * 100) : ℚ) / 100

lemma pyRoundInt_nonneg {x : ℚ} (hx : 0 ≤ x) : 0 ≤ pyRoundInt x := by
  have hfl : (0 : ℤ) ≤ ⌊x⌋ := Int.le_floor.2 (by exact_mod_cast hx)
  unfold pyRoundInt
  dsimp only
  split_ifs <;> omega

lemma pyRoundInt_le {x : ℚ} {m : ℤ} (hx : x ≤ (m : ℚ)) : pyRoundInt x ≤ m := by
  have hfl : ⌊x⌋ ≤ m := by
    have := Int.floor_mono hx
    simpa using this
  unfold pyRoundInt
  dsimp only
  split_ifs with h1 h2 h3
  · exact hfl
  · -- fractional part strictly above 1/2: x is not an integer, so ⌊x⌋ < m
    have hlt : (⌊x⌋ : ℚ) < x := by
      have := Int.floor_le x
      by_contra hc
      push_neg at hc
      have : x = (⌊x⌋ : ℚ) := le_antisymm hc this
      rw [this] at h2
      simp at h2
      linarith
    have : ⌊x⌋ < m := by
      by_contra hc
      push_neg at hc
      have h1 : (m : ℚ) ≤ (⌊x⌋ : ℚ) := by exact_mod_cast hc
      linarith
    omega
  · -- fractional part exactly 1/2, even floor
    exact hfl
  · -- fractional part exactly 1/2: x is not an integer, so ⌊x⌋ < m
    have h12 : x - ⌊x⌋ = 1/2 := le_antisymm (not_lt.1 h2) (not_lt.1 h1)
    have hlt : (⌊x⌋ : ℚ) < x := by linarith
    have : ⌊x⌋ < m := by
      by_contra hc
      push_neg at hc
      have h1 : (m : ℚ) ≤ (⌊x⌋ : ℚ) := by exact_mod_cast hc
      linarith
    omega

lemma round2_nonneg {x : ℚ} (hx : 0 ≤ x) : 0 ≤ round2 x := by
  unfold round2
  have := pyRoundInt_nonneg (x := x * 100) (by linarith)
  positivity

lemma round2_le {x : ℚ} {m : ℤ} (hx : x ≤ (m : ℚ) / 100) : round2 x ≤ (m : ℚ) / 100 := by
  unfold round2
  have h100 : x * 100 ≤ (m : ℚ) := by linarith
  have := pyRoundInt_le h100
  have hc : (pyRoundInt (x * 100) : ℚ) ≤ (m : ℚ) := by exact_mod_cast this
  linarith

/-! ## TechnicalScorer (`RatingService._calculate_technical_score`)

Only the indicator fields read by the scoring rule are modelled. -/

structure TechnicalIndicator where
  current_price : ℚ
  sma_50 : ℚ
  sma_200 : ℚ
  rsi : ℚ
  macd : ℚ
  macd_signal : ℚ

/-- Pre-clamp additive technical score.  The source accumulates
`score += δ` with increments independent of the running score, so the
accumulation is written as a sum of the five conditional increments
added to the base 5.0. -/
def technical_score_raw (t : TechnicalIndicator) : ℚ :=
  5
    + (if t.sma_50 < t.current_price then 3/2 else 0)
    + (if t.sma_200 < t.current_price then 3/2 else 0)
    + (if t.sma_200 < t.sma_50 then 1 else 0)
    + (if 40 ≤ t.rsi ∧ t.rsi ≤ 60 then 3/2
       else if 30 ≤ t.rsi ∧ t.rsi ≤ 70 then 1
       else if t.rsi < 30 ∨ 70 < t.rsi then 1/2
       else 0)
    + (if t.macd_signal < t.macd then 3/2 else 0)

/-- `_calculate_technical_score`: base-5 additive rule, clamped by
`min(max(score, 0), 10)`. -/
def calculate_technical_score (t : TechnicalIndicator) : ℚ :=
  min (max (technical_score_raw t) 0) 10

/-! ## FundamentalScorer (`RatingService._calculate_fundamental_score`)

Each ratio is optional (`None` when the provider had no usable metric);
the source tests each with Python truthiness, so a present `0.0` is
skipped exactly like a missing value.  As in the technical scorer the
source accumulates score-independent increments, written here as a sum. -/

structure FundamentalIndicator where
  pe_ratio : Option ℚ
  pb_ratio : Option ℚ
  debt_to_equity : Option ℚ
  profit_margin : Option ℚ
  dividend_yield : Option ℚ

/-- P/E adjustment of `_calculate_fundamental_score` (source branch order). -/
def pe_adjust (pe : Option ℚ) : ℚ :=
  if pyTruthy pe then
    let v := pe.getD 0
    if 10 ≤ v ∧ v ≤ 20 then 3/2
    else if 5 ≤ v ∧ v ≤ 30 then 1
    else if v < 5 ∨ 50 < v then -(1/2)
    else 0
  else 0

/-- P/B adjustment of `_calculate_fundamental_score`. -/
def pb_adjust (pb : Option ℚ) : ℚ :=
  if pyTruthy pb then
    let v := pb.getD 0
    if 1 ≤ v ∧ v ≤ 3 then 1
    else if v < 1 then 3/2
    else 0
  else 0

/-- Debt/equity adjustment of `_calculate_fundamental_score`. -/
def de_adjust (de : Option ℚ) : ℚ :=
  if pyTruthy de then
    let v := de.getD 0
    if v < 50 then 1
    else if 100 < v then -(1/2)
    else 0
  else 0

/-- Profit-margin adjustment of `_calculate_fundamental_score`. -/
def pm_adjust (pm : Option ℚ) : ℚ :=
  if pyTruthy pm then
    let v := pm.getD 0
    if 15/100 < v then 3/2
    else if 5/100 < v then 1
    else if v < 0 then -1
    else 0
  else 0

/-- `_calculate_fundamental_score`: base 5.0 plus the four ratio
adjustments, clamped by `min(max(score, 0), 10)`. -/
def calculate_fundamental_score (f : FundamentalIndicator) : ℚ :=
  min (max (5 + pe_adjust f.pe_ratio + pb_adjust f.pb_ratio
              + de_adjust f.debt_to_equity + pm_adjust f.profit_margin) 0) 10

/-! ## AnalystScorer (`RatingService._get_analyst_score`)

Modelled on the recommendation counts of the latest trend entry. -/

/-- `_get_analyst_score` applied to the latest recommendation counts. -/
def get_analyst_score (strongBuy buy hold sell strongSell : ℚ) : ℚ :=
  let total := strongBuy * 2 + buy * 1 - sell * 1 - strongSell * 2
  let count := strongBuy + buy + hold + sell + strongSell
  if count = 0 then 5
  else
    let sentiment := total / max count 1
    min (max ((sentiment + 2) * (5/2)) 0) 10

/-! ## MacroScorer (`MacroeconomicService`)

Indicator values fetched from FRED; a fetch that produced no value for an
indicator leaves it `none`.  All the `_score_*` component functions guard
with Python truthiness, so a present `0.0` behaves like a missing value. -/

structure MacroInputs where
  fed_funds_rate : Option ℚ
  inflation_rate : Option ℚ
  gdp_growth : Option ℚ
  unemployment : Option ℚ
  treasury_10y : Option ℚ
  treasury_2y : Option ℚ
  consumer_sentiment : Option ℚ

/-- The empty indicator dict (a fetch that found nothing). -/
def MacroInputs.empty : MacroInputs := ⟨none, none, none, none, none, none, none⟩

/-- `not indicators` in the source: the indicator dict is empty. -/
def MacroInputs.isEmpty (m : MacroInputs) : Bool :=
  m.fed_funds_rate.isNone && m.inflation_rate.isNone && m.gdp_growth.isNone
    && m.unemployment.isNone && m.treasury_10y.isNone && m.treasury_2y.isNone
    && m.consumer_sentiment.isNone

/-- `_score_interest_rates`: fed funds rate with 10y-treasury fallback,
optimal range [2,4]. -/
def score_interest_rates (fed_funds treasury_10y : Option ℚ) : ℚ :=
  if ¬ pyTruthy fed_funds ∧ ¬ pyTruthy treasury_10y then 5
  else
    let rate := if pyTruthy fed_funds then fed_funds.getD 0 else treasury_10y.getD 0
    if rate < 1 then 7
    else if 2 ≤ rate ∧ rate ≤ 4 then 9
    else if rate ≤ 6 then max 4 (9 - (rate - 4) / 2)
    else 3

/-- `_score_inflation`: YoY CPI inflation, optimal range [1.5,3]. -/
def score_inflation (inflation_rate : Option ℚ) : ℚ :=
  if ¬ pyTruthy inflation_rate then 5
  else
    let r := inflation_rate.getD 0
    if r < 0 then 4
    else if 3/2 ≤ r ∧ r ≤ 3 then 9
    else if r ≤ 5 then max 5 (9 - (r - 3) * (3/2))
    else max 2 (10 - r)

/-- `_score_gdp_growth`: quarterly real GDP growth, optimal range [2,4]. -/
def score_gdp_growth (gdp_growth : Option ℚ) : ℚ :=
  if ¬ pyTruthy gdp_growth then 5
  else
    let r := gdp_growth.getD 0
    if r < -2 then 2
    else if r < 0 then 4
    else if 2 ≤ r ∧ r ≤ 4 then 9
    else if r ≤ 6 then 7
    else 6

/-- `_score_unemployment`: unemployment rate, optimal range [3.5,5]. -/
def score_unemployment (unemployment : Option ℚ) : ℚ :=
  if ¬ pyTruthy unemployment then 5
  else
    let u := unemployment.getD 0
    if u < 3 then 7
    else if 7/2 ≤ u ∧ u ≤ 5 then 9
    else if u ≤ 7 then max 4 (9 - (u - 5) * 1)
    else max 2 (12 - u)

/-- `_score_yield_curve`: 10y − 2y treasury spread. -/
def score_yield_curve (treasury_10y treasury_2y : Option ℚ) : ℚ :=
  if ¬ pyTruthy treasury_10y ∨ ¬ pyTruthy treasury_2y then 5
  else
    let spread := treasury_10y.getD 0 - treasury_2y.getD 0
    if spread < -(1/2) then 2
    else if spread < 0 then 4
    else if 1/2 ≤ spread ∧ spread ≤ 2 then 9
    else if spread ≤ 3 then 7
    else 6

/-- `_score_consumer_sentiment`: Michigan consumer sentiment, optimal
range [75,95]. -/
def score_consumer_sentiment (sentiment : Option ℚ) : ℚ :=
  if ¬ pyTruthy sentiment then 5
  else
    let s := sentiment.getD 0
    if s < 60 then 3
    else if s < 70 then 5
    else if 75 ≤ s ∧ s ≤ 95 then 9
    else 8

/-- The six macro component scores. -/
structure MacroComponents where
  interest_rates : ℚ
  inflation : ℚ
  growth : ℚ
  employment : ℚ
  yield_curve : ℚ
  sentiment : ℚ

/-- Component scores computed from the fetched indicators
(`calculate_macro_score`, component-score section). -/
def macro_components_of (ind : MacroInputs) : MacroComponents :=
  { interest_rates := score_interest_rates ind.fed_funds_rate ind.treasury_10y
    inflation := score_inflation ind.inflation_rate
    growth := score_gdp_growth ind.gdp_growth
    employment := score_unemployment ind.unemployment
    yield_curve := score_yield_curve ind.treasury_10y ind.treasury_2y
    sentiment := score_consumer_sentiment ind.consumer_sentiment }

/-- The fixed macro weights dict
`interest_rates 0.25, inflation 0.25, growth 0.20, employment 0.10,
yield_curve 0.10, sentiment 0.10` applied to the components. -/
def macro_weighted (c : MacroComponents) : ℚ :=
  c.interest_rates * (1/4) + c.inflation * (1/4) + c.growth * (1/5)
    + c.employment * (1/10) + c.yield_curve * (1/10) + c.sentiment * (1/10)

/-- Python `f-string` fixed-point formatting `.1f`, idealised to exact
decimal rounding of the rational value (half to even, as CPython). -/
def formatFixed1 (x : ℚ) : String :=
  let scaled := pyRoundInt (|x| * 10)
  let sign := if x < 0 then "-" else ""
  sign ++ toString (scaled / 10) ++ "." ++ toString (scaled % 10)

/-- `_generate_analysis`: human-readable summary of macro conditions.
Uses the unrounded composite score, the indicator dict and the component
scores; `indicators.get(k, 0)` is `Option.getD _ 0` and the truthiness
tests follow the source. -/
def generate_analysis (macro_score : ℚ) (ind : MacroInputs) (c : MacroComponents) : String :=
  let overall :=
    if 8 ≤ macro_score then "Favorable macroeconomic environment for stocks"
    else if 6 ≤ macro_score then "Moderately supportive macro conditions"
    else if 4 ≤ macro_score then "Mixed macroeconomic signals"
    else "Challenging macro environment for equities"
  let infl := ind.inflation_rate.getD 0
  let gdp := ind.gdp_growth.getD 0
  let t10 := ind.treasury_10y.getD 0
  let t2 := ind.treasury_2y.getD 0
  let positives : List String :=
    (if 7 ≤ c.interest_rates then ["interest rates in favorable range"] else [])
      ++ (if infl ≠ 0 ∧ 3/2 ≤ infl ∧ infl ≤ 3 then ["inflation well-controlled"] else [])
      ++ (if gdp ≠ 0 ∧ 3 < gdp then ["strong economic growth"] else [])
  let concerns : List String :=
    (if c.interest_rates ≤ 4 then ["elevated interest rates pressuring valuations"] else [])
      ++ (if infl ≠ 0 ∧ 4 < infl then ["inflation elevated at " ++ formatFixed1 infl ++ "%"] else [])
      ++ (if gdp ≠ 0 ∧ gdp < 0 then ["negative GDP growth"] else [])
      ++ (if t10 ≠ 0 ∧ t2 ≠ 0 ∧ t10 - t2 < 0 then ["inverted yield curve (recession signal)"] else [])
  let sep := ", "
  let s1 := overall ++ ". "
  let s2 := if positives.isEmpty then s1
    else s1 ++ "Positives: " ++ String.intercalate sep positives ++ ". "
  let s3 := if concerns.isEmpty then s2
    else s2 ++ "Concerns: " ++ String.intercalate sep concerns ++ "."
  s3.trim

/-- Result dict of `calculate_macro_score` (score fields, indicator dict,
analysis text and source tag; the auxiliary context/meta maps are not
referenced by any verified statement and are omitted). -/
structure MacroResult where
  macro_score : ℚ
  components : MacroComponents
  indicators : MacroInputs
  analysis : String
  data_source : String

/-- `_get_default_score`: the fixed neutral snapshot used when no FRED
API key is configured (or the fetch produced nothing / raised). -/
def get_default_score : MacroResult :=
  { macro_score := 5
    components := ⟨5, 5, 5, 5, 5, 5⟩
    indicators := MacroInputs.empty
    analysis := "Macro score unavailable (FRED API key not configured)"
    data_source := "default" }

/-- `MacroeconomicService.calculate_macro_score`, parameterised by whether
an API key is configured and the indicators the FRED fetch produced. -/
def calculate_macro_score (hasApiKey : Bool) (ind : MacroInputs) : MacroResult :=
  if ¬ hasApiKey then get_default_score
  else if ind.isEmpty then get_default_score
  else
    let comps := macro_components_of ind
    let ms := macro_weighted comps
    { macro_score := round2 ms
      components :=
        ⟨round2 comps.interest_rates, round2 comps.inflation, round2 comps.growth,
         round2 comps.employment, round2 comps.yield_curve, round2 comps.sentiment⟩
      indicators := ind
      analysis := generate_analysis ms ind comps
      data_source := "FRED" }

/-! ## RatingAggregator (`RatingService.calculate_rating`) -/

/-- The `RatingService.weights` dict, in the order
(technical, analyst, fundamental, macro). -/
def rating_weights : ℚ × ℚ × ℚ × ℚ := (1/4, 1/4, 1/4, 1/4)

/-- The unrounded weighted overall rating of `calculate_rating`. -/
def overall_rating (technical_score analyst_score fundamental_score macro_score : ℚ) : ℚ :=
  technical_score * rating_weights.1
    + analyst_score * rating_weights.2.1
    + fundamental_score * rating_weights.2.2.1
    + macro_score * rating_weights.2.2.2

/-- The `overall_rating` entry of the returned dict: rounded to 2 places. -/
def reported_overall (t a f m : ℚ) : ℚ := round2 (overall_rating t a f m)

/-- End-to-end overall rating of `calculate_rating`: component scorers
applied to their snapshots, the macro score taken from the (already
rounded) `macro_score` entry of the macro result. -/
def calculate_rating_overall (tech : TechnicalIndicator) (fund : FundamentalIndicator)
    (strongBuy buy hold sell strongSell : ℚ) (hasApiKey : Bool) (ind : MacroInputs) : ℚ :=
  reported_overall (calculate_technical_score tech)
    (get_analyst_score strongBuy buy hold sell strongSell)
    (calculate_fundamental_score fund)
    (calculate_macro_score hasApiKey ind).macro_score

/-! ## RateLimitedClient (`FinnhubClient`)

### Retry loop (`FinnhubClient.get`)

The loop runs `for attempt in range(3)`.  A 429 response sleeps
`1.5 * (attempt + 1)` seconds and retries; any other status is passed to
`raise_for_status`, which raises for 4xx/5xx (modelled as status ≥ 400)
and otherwise lets the JSON body be returned.  Falling out of the loop
returns `None` — the spec's `TransientProviderError` surface; an HTTP
error from `raise_for_status` is the spec's `ProviderError`. -/

inductive GetOutcome where
  /-- `resp.json()` returned at this (0-based) attempt. -/
  | success (attempt : ℕ)
  /-- `raise_for_status` raised at this attempt with this status. -/
  | httpError (attempt status : ℕ)
  /-- the loop exhausted all attempts on 429s and `get` returned `None`. -/
  | exhaustedNone
deriving DecidableEq

/-- One pass of the `for attempt in range(3)` loop of `FinnhubClient.get`,
given the response status of each attempt.  Returns the outcome and the
list of backoff sleeps performed (in seconds). -/
def getAttempts (statuses : ℕ → ℕ) (attempt remaining : ℕ) : GetOutcome × List ℚ :=
  match remaining with
  | 0 => (.exhaustedNone, [])
  | r + 1 =>
    let st := statuses attempt
    if st = 429 then
      let rest := getAttempts statuses (attempt + 1) r
      (rest.1, (3/2 * ((attempt : ℚ) + 1)) :: rest.2)
    else if 400 ≤ st then (.httpError attempt st, [])
    else (.success attempt, [])

/-- `FinnhubClient.get`: three total attempts. -/
def finnhubGet (statuses : ℕ → ℕ) : GetOutcome × List ℚ :=
  getAttempts statuses 0 3

/-! ### Sliding-window throttle (`FinnhubClient._throttle`)

The deque of call timestamps is a list, oldest first; times are seconds.
`time.sleep` is modelled by advancing the virtual clock, so the timestamp
appended after a sleep is `now + sleepFor`. -/

/-- The `while … popleft()` prune: drop leading entries strictly older
than 60 seconds. -/
def pruneWindow (now : ℚ) : List ℚ → List ℚ
  | [] => []
  | t :: rest => if 60 < now - t then pruneWindow now rest else t :: rest

/-- One `_throttle` call at wall-clock `now`: prune, sleep if the window
is full, append the post-sleep timestamp.  Returns the new window and the
sleep duration. -/
def throttleStep (maxPerMinute : ℕ) (q : List ℚ) (now : ℚ) : List ℚ × ℚ :=
  let q2 := pruneWindow now q
  if maxPerMinute ≤ q2.length then
    let sleepFor := max (60 - (now - q2.headD 0) + 1/20) 0
    (q2 ++ [now + sleepFor], sleepFor)
  else (q2 ++ [now], 0)

/-- Issue a sequence of calls (arrival times, in order) through the
throttle; returns the final window and the per-call sleeps. -/
def runThrottle (maxPerMinute : ℕ) (q : List ℚ) : List ℚ → List ℚ × List ℚ
  | [] => (q, [])
  | t :: ts =>
    let s := throttleStep maxPerMinute q t
    let r := runThrottle maxPerMinute s.1 ts
    (r.1, s.2 :: r.2)

/-! ## SnapshotCache (`_get_or_fetch_technical` / `_get_or_fetch_fundamental`)

A stock's snapshots are modelled by their timestamps (hours).  The DB
query filters `calculated_at >= cutoff` with `cutoff = utcnow − ttl`,
orders descending and takes the first row, i.e. the newest timestamp
satisfying `now − ttl ≤ ts`; if none, the service fetches and stores. -/

inductive CacheOutcome where
  /-- a cached snapshot with this timestamp was returned. -/
  | cached (ts : ℚ)
  /-- no fresh snapshot: fetch from the provider and store. -/
  | fetched
deriving DecidableEq

/-- `self.technical_ttl_hours = 6`. -/
def technical_ttl_hours : ℚ := 6

/-- `self.fundamental_ttl_hours = 24`. -/
def fundamental_ttl_hours : ℚ := 24

/-- The shared cached-lookup pattern of both `_get_or_fetch_*` methods. -/
def snapshotLookup (ttlHours now : ℚ) (snaps : List ℚ) : CacheOutcome :=
  match (snaps.filter (fun ts => decide (now - ttlHours ≤ ts))).max? with
  | some t => .cached t
  | none => .fetched

/-- `RatingService._get_or_fetch_technical`. -/
def get_or_fetch_technical (now : ℚ) (snaps : List ℚ) : CacheOutcome :=
  snapshotLookup technical_ttl_hours now snaps

/-- `RatingService._get_or_fetch_fundamental`. -/
def get_or_fetch_fundamental (now : ℚ) (snaps : List ℚ) : CacheOutcome :=
  snapshotLookup fundamental_ttl_hours now snaps

/-! ## RSI (`RatingService._calculate_rsi`)

`prices.diff()` yields a leading `NaN` which `delta.where(delta > 0, 0)`
(and the loss analogue) turns into `0`, since `NaN > 0` is false; the
delta list therefore starts with `0`.  The rolling(14) mean of the last
window exists iff the series has ≥ 14 entries.  The final division
follows IEEE semantics, made explicit here: with `avgLoss = 0` and
`avgGain > 0`, `rs = ∞` and `rsi = 100 − 100/(1+∞) = 100`; with both
averages zero, `rs = NaN`, `rsi = NaN` (encoded as `none`) and the
source returns the neutral fallback 50. -/

/-- Day-over-day close deltas, with the leading `diff()` entry already
zeroed by the `where` masks. -/
def deltas : List ℚ → List ℚ
  | [] => []
  | p => 0 :: List.zipWith (fun next prev => next - prev) p.tail p

/-- `delta.where(delta > 0, 0)`. -/
def gainsList (p : List ℚ) : List ℚ :=
  (deltas p).map (fun d => if 0 < d then d else 0)

/-- `(-delta.where(delta < 0, 0))`. -/
def lossList (p : List ℚ) : List ℚ :=
  (deltas p).map (fun d => if d < 0 then -d else 0)

/-- Last value of `rolling(window).mean()`: defined iff the series has at
least `window` entries, as the mean of the final `window` entries. -/
def rollMeanLast (window : ℕ) (xs : List ℚ) : Option ℚ :=
  if xs.length < window then none
  else some ((xs.drop (xs.length - window)).sum / window)

/-- The final RSI value; `none` is IEEE `NaN`. -/
def rsiLast (p : List ℚ) : Option ℚ :=
  match rollMeanLast 14 (gainsList p), rollMeanLast 14 (lossList p) with
  | some g, some l =>
    if l = 0 then (if g = 0 then none else some 100)
    else some (100 - 100 / (1 + g / l))
  | _, _ => none

/-- `_calculate_rsi`: the last RSI value, defaulting to 50 on `NaN`. -/
def calculate_rsi (p : List ℚ) : ℚ := (rsiLast p).getD 50

/-! ## Spec-worded adjustment rules (for refinement statements)

`XAdjustAmended` renders the fundamental-score factor rules in the
claim's own vocabulary, amended only in that a ratio equal to zero
contributes no adjustment (exactly like a missing ratio).
`peAdjustClaimed` is the claim's P/E rule verbatim, zero not special. -/

def peAdjustAmended : Option ℚ → ℚ
  | none => 0
  | some v =>
    if v = 0 then 0
    else if 10 ≤ v ∧ v ≤ 20 then 3/2
    else if 5 ≤ v ∧ v ≤ 30 then 1
    else if v < 5 ∨ 50 < v then -(1/2)
    else 0

def pbAdjustAmended : Option ℚ → ℚ
  | none => 0
  | some v =>
    if v = 0 then 0
    else if 1 ≤ v ∧ v ≤ 3 then 1
    else if v < 1 then 3/2
    else 0

def deAdjustAmended : Option ℚ → ℚ
  | none => 0
  | some v =>
    if v = 0 then 0
    else if v < 50 then 1
    else if 100 < v then -(1/2)
    else 0

def pmAdjustAmended : Option ℚ → ℚ
  | none => 0
  | some v =>
    if v = 0 then 0
    else if 15/100 < v then 3/2
    else if 5/100 < v then 1
    else if v < 0 then -1
    else 0

/-- The claim's P/E rule exactly as stated: applies to every present
ratio value, with no special case for zero. -/
def peAdjustClaimed : Option ℚ → ℚ
  | none => 0
  | some v =>
    if 10 ≤ v ∧ v ≤ 20 then 3/2
    else if 5 ≤ v ∧ v ≤ 30 then 1
    else if v < 5 ∨ 50 < v then -(1/2)
    else 0

/-! # Verified statements -/

lemma pyTruthy_iff {x : Option ℚ} : pyTruthy x = true ↔ x.getD 0 ≠ 0 := by
  simp [pyTruthy]

lemma clamp_mem_0_10 (x : ℚ) : 0 ≤ min (max x 0) 10 ∧ min (max x 0) 10 ≤ 10 :=
  ⟨le_min (le_max_right x 0) (by norm_num), min_le_right _ 10⟩

lemma technical_score_bounds (t : TechnicalIndicator) :
    0 ≤ calculate_technical_score t ∧ calculate_technical_score t ≤ 10 :=
  clamp_mem_0_10 (technical_score_raw t)

lemma fundamental_score_bounds (f : FundamentalIndicator) :
    0 ≤ calculate_fundamental_score f ∧ calculate_fundamental_score f ≤ 10 :=
  clamp_mem_0_10 _

lemma analyst_score_bounds (sb b h se ss : ℚ) :
    0 ≤ get_analyst_score sb b h se ss ∧ get_analyst_score sb b h se ss ≤ 10 := by
  unfold get_analyst_score
  dsimp only
  split_ifs
  · norm_num
  · exact clamp_mem_0_10 _

lemma interest_piece_bounds (r : ℚ) :
    0 ≤ (if r < 1 then (7:ℚ) else if 2 ≤ r ∧ r ≤ 4 then 9
         else if r ≤ 6 then max 4 (9 - (r - 4) / 2) else 3)
    ∧ (if r < 1 then (7:ℚ) else if 2 ≤ r ∧ r ≤ 4 then 9
       else if r ≤ 6 then max 4 (9 - (r - 4) / 2) else 3) ≤ 21/2 := by
  split_ifs with h1 h2 h3
  · norm_num
  · norm_num
  · have hr : (1:ℚ) ≤ r := not_lt.1 h1
    exact ⟨le_trans (by norm_num) (le_max_left 4 _), max_le (by norm_num) (by linarith)⟩
  · norm_num

lemma score_interest_rates_bounds (x y : Option ℚ) :
    0 ≤ score_interest_rates x y ∧ score_interest_rates x y ≤ 21/2 := by
  unfold score_interest_rates
  dsimp only
  by_cases hg : (¬ pyTruthy x = true ∧ ¬ pyTruthy y = true)
  · rw [if_pos hg]
    norm_num
  · rw [if_neg hg]
    exact interest_piece_bounds _

lemma inflation_piece_bounds (r : ℚ) (hne : r ≠ 0) :
    0 ≤ (if r < 0 then (4:ℚ) else if 3/2 ≤ r ∧ r ≤ 3 then 9
         else if r ≤ 5 then max 5 (9 - (r - 3) * (3/2)) else max 2 (10 - r))
    ∧ (if r < 0 then (4:ℚ) else if 3/2 ≤ r ∧ r ≤ 3 then 9
       else if r ≤ 5 then max 5 (9 - (r - 3) * (3/2)) else max 2 (10 - r)) < 27/2 := by
  split_ifs with h1 h2 h3
  · norm_num
  · norm_num
  · have hpos : 0 < r := lt_of_le_of_ne (not_lt.1 h1) (Ne.symm hne)
    exact ⟨le_trans (by norm_num) (le_max_left 5 _), max_lt (by norm_num) (by nlinarith)⟩
  · have h5 : (5:ℚ) < r := not_le.1 h3
    exact ⟨le_trans (by norm_num) (le_max_left 2 _), max_lt (by norm_num) (by linarith)⟩

lemma score_inflation_bounds (x : Option ℚ) :
    0 ≤ score_inflation x ∧ score_inflation x < 27/2 := by
  unfold score_inflation
  dsimp only
  by_cases hg : (¬ pyTruthy x = true)
  · rw [if_pos hg]
    norm_num
  · rw [if_neg hg]
    exact inflation_piece_bounds _ (pyTruthy_iff.1 (Decidable.not_not.1 hg))

lemma score_gdp_growth_bounds (x : Option ℚ) :
    0 ≤ score_gdp_growth x ∧ score_gdp_growth x ≤ 10 := by
  unfold score_gdp_growth
  dsimp only
  split_ifs <;> norm_num

lemma unemployment_piece_bounds (u : ℚ) :
    0 ≤ (if u < 3 then (7:ℚ) else if 7/2 ≤ u ∧ u ≤ 5 then 9
         else if u ≤ 7 then max 4 (9 - (u - 5) * 1) else max 2 (12 - u))
    ∧ (if u < 3 then (7:ℚ) else if 7/2 ≤ u ∧ u ≤ 5 then 9
       else if u ≤ 7 then max 4 (9 - (u - 5) * 1) else max 2 (12 - u)) ≤ 11 := by
  split_ifs with h1 h2 h3
  · norm_num
  · norm_num
  · have hr : (3:ℚ) ≤ u := not_lt.1 h1
    exact ⟨le_trans (by norm_num) (le_max_left 4 _), max_le (by norm_num) (by linarith)⟩
  · have h7 : (7:ℚ) < u := not_le.1 h3
    exact ⟨le_trans (by norm_num) (le_max_left 2 _), max_le (by norm_num) (by linarith)⟩

lemma score_unemployment_bounds (x : Option ℚ) :
    0 ≤ score_unemployment x ∧ score_unemployment x ≤ 11 := by
  unfold score_unemployment
  dsimp only
  by_cases hg : (¬ pyTruthy x = true)
  · rw [if_pos hg]
    norm_num
  · rw [if_neg hg]
    exact unemployment_piece_bounds _

lemma score_yield_curve_bounds (x y : Option ℚ) :
    0 ≤ score_yield_curve x y ∧ score_yield_curve x y ≤ 10 := by
  unfold score_yield_curve
  dsimp only
  split_ifs <;> norm_num

lemma score_consumer_sentiment_bounds (x : Option ℚ) :
    0 ≤ score_consumer_sentiment x ∧ score_consumer_sentiment x ≤ 10 := by
  unfold score_consumer_sentiment
  dsimp only
  split_ifs <;> norm_num

lemma macro_weighted_bounds (ind : MacroInputs) :
    0 ≤ macro_weighted (macro_components_of ind)
      ∧ macro_weighted (macro_components_of ind) ≤ 27/2 := by
  obtain ⟨i1, i2⟩ := score_interest_rates_bounds ind.fed_funds_rate ind.treasury_10y
  obtain ⟨n1, n2⟩ := score_inflation_bounds ind.inflation_rate
  obtain ⟨g1, g2⟩ := score_gdp_growth_bounds ind.gdp_growth
  obtain ⟨e1, e2⟩ := score_unemployment_bounds ind.unemployment
  obtain ⟨y1, y2⟩ := score_yield_curve_bounds ind.treasury_10y ind.treasury_2y
  obtain ⟨s1, s2⟩ := score_consumer_sentiment_bounds ind.consumer_sentiment
  simp only [macro_weighted, macro_components_of]
  constructor <;> linarith

lemma macro_score_bounds (hasApiKey : Bool) (ind : MacroInputs) :
    0 ≤ (calculate_macro_score hasApiKey ind).macro_score
      ∧ (calculate_macro_score hasApiKey ind).macro_score ≤ 27/2 := by
  unfold calculate_macro_score
  dsimp only
  by_cases hk : (¬ hasApiKey = true)
  · rw [if_pos hk]
    norm_num [get_default_score]
  · rw [if_neg hk]
    by_cases he : (ind.isEmpty = true)
    · rw [if_pos he]
      norm_num [get_default_score]
    · rw [if_neg he]
      dsimp only
      obtain ⟨hl, hu⟩ := macro_weighted_bounds ind
      refine ⟨round2_nonneg hl, ?_⟩
      have h := round2_le (x := macro_weighted (macro_components_of ind)) (m := 1350)
        (by push_cast; linarith)
      push_cast at h
      linarith

lemma overall_pipeline_bounds (tech : TechnicalIndicator) (fund : FundamentalIndicator)
    (sb b h se ss : ℚ) (hasApiKey : Bool) (ind : MacroInputs) :
    0 ≤ calculate_rating_overall tech fund sb b h se ss hasApiKey ind
      ∧ calculate_rating_overall tech fund sb b h se ss hasApiKey ind ≤ 27/2 := by
  obtain ⟨t1, t2⟩ := technical_score_bounds tech
  obtain ⟨a1, a2⟩ := analyst_score_bounds sb b h se ss
  obtain ⟨f1, f2⟩ := fundamental_score_bounds fund
  obtain ⟨m1, m2⟩ := macro_score_bounds hasApiKey ind
  unfold calculate_rating_overall reported_overall
  simp only [overall_rating, rating_weights]
  constructor
  · exact round2_nonneg (by linarith)
  · have hr := round2_le
      (x := calculate_technical_score tech * (1/4)
        + get_analyst_score sb b h se ss * (1/4)
        + calculate_fundamental_score fund * (1/4)
        + (calculate_macro_score hasApiKey ind).macro_score * (1/4))
      (m := 1350) (by push_cast; linarith)
    push_cast at hr
    linarith

/-- **C1** (amended).  Every score the engine produces is nonnegative, but
not every one is bounded by 10: the technical, fundamental and analyst
scores and the growth, yield-curve and sentiment macro components lie in
[0,10], while the interest-rate macro component can reach 10.5, the
employment component 11, and the inflation component any value strictly
below 13.5; consequently the macro composite and the overall rating are
only bounded by 13.5. -/
theorem engine_score_ranges :
    (∀ t, 0 ≤ calculate_technical_score t ∧ calculate_technical_score t ≤ 10) ∧
    (∀ f, 0 ≤ calculate_fundamental_score f ∧ calculate_fundamental_score f ≤ 10) ∧
    (∀ sb b h se ss, 0 ≤ get_analyst_score sb b h se ss
      ∧ get_analyst_score sb b h se ss ≤ 10) ∧
    (∀ x y, 0 ≤ score_interest_rates x y ∧ score_interest_rates x y ≤ 21/2) ∧
    (∀ x, 0 ≤ score_inflation x ∧ score_inflation x < 27/2) ∧
    (∀ x, 0 ≤ score_gdp_growth x ∧ score_gdp_growth x ≤ 10) ∧
    (∀ x, 0 ≤ score_unemployment x ∧ score_unemployment x ≤ 11) ∧
    (∀ x y, 0 ≤ score_yield_curve x y ∧ score_yield_curve x y ≤ 10) ∧
    (∀ x, 0 ≤ score_consumer_sentiment x ∧ score_consumer_sentiment x ≤ 10) ∧
    (∀ hasApiKey ind, 0 ≤ (calculate_macro_score hasApiKey ind).macro_score
      ∧ (calculate_macro_score hasApiKey ind).macro_score ≤ 27/2) ∧
    (∀ tech fund sb b h se ss hasApiKey ind,
      0 ≤ calculate_rating_overall tech fund sb b h se ss hasApiKey ind
      ∧ calculate_rating_overall tech fund sb b h se ss hasApiKey ind ≤ 27/2) :=
  ⟨technical_score_bounds, fundamental_score_bounds, analyst_score_bounds,
    score_interest_rates_bounds, score_inflation_bounds, score_gdp_growth_bounds,
    score_unemployment_bounds, score_yield_curve_bounds, score_consumer_sentiment_bounds,
    macro_score_bounds, overall_pipeline_bounds⟩

/-- **C1** counterexample: a present YoY inflation reading of 0.5 %
falls in the `≤ 5.0` branch with a negative penalty, so the inflation
component score is 12.75, violating the claimed upper bound 10. -/
theorem inflation_component_exceeds_ten :
    score_inflation (some (1/2)) = 51/4 ∧ ¬ score_inflation (some (1/2)) ≤ 10 := by
  have h : score_inflation (some (1/2)) = 51/4 := by
    norm_num [score_inflation, pyTruthy]
  exact ⟨h, by rw [h]; norm_num⟩

lemma round2_mem_0_10 {x : ℚ} (h0 : 0 ≤ x) (h10 : x ≤ 10) :
    0 ≤ round2 x ∧ round2 x ≤ 10 := by
  refine ⟨round2_nonneg h0, ?_⟩
  have h := round2_le (x := x) (m := 1000) (by push_cast; linarith)
  push_cast at h
  linarith

/-- **C2**.  For component scores in [0,10], the overall rating equals
`round(0.25×tech + 0.25×analyst + 0.25×fundamental + 0.25×macro, 2)` and
the five reported (rounded) scores all lie in [0,10]. -/
theorem calculate_rating_formula (t a f m : ℚ)
    (ht0 : 0 ≤ t) (ht1 : t ≤ 10) (ha0 : 0 ≤ a) (ha1 : a ≤ 10)
    (hf0 : 0 ≤ f) (hf1 : f ≤ 10) (hm0 : 0 ≤ m) (hm1 : m ≤ 10) :
    reported_overall t a f m
        = round2 (25/100 * t + 25/100 * a + 25/100 * f + 25/100 * m)
    ∧ (0 ≤ reported_overall t a f m ∧ reported_overall t a f m ≤ 10)
    ∧ (0 ≤ round2 t ∧ round2 t ≤ 10)
    ∧ (0 ≤ round2 a ∧ round2 a ≤ 10)
    ∧ (0 ≤ round2 f ∧ round2 f ≤ 10)
    ∧ (0 ≤ round2 m ∧ round2 m ≤ 10) := by
  have hov : overall_rating t a f m
      = 25/100 * t + 25/100 * a + 25/100 * f + 25/100 * m := by
    simp only [overall_rating, rating_weights]
    ring
  refine ⟨by rw [reported_overall, hov], ?_, round2_mem_0_10 ht0 ht1,
    round2_mem_0_10 ha0 ha1, round2_mem_0_10 hf0 hf1, round2_mem_0_10 hm0 hm1⟩
  rw [reported_overall, hov]
  exact round2_mem_0_10 (by linarith) (by linarith)

/-- **C2** witness at (8, 6, 4, 2). -/
theorem calculate_rating_formula_witness :
    reported_overall 8 6 4 2
      = round2 (25/100 * 8 + 25/100 * 6 + 25/100 * 4 + 25/100 * 2) :=
  (calculate_rating_formula 8 6 4 2 (by norm_num) (by norm_num) (by norm_num)
    (by norm_num) (by norm_num) (by norm_num) (by norm_num) (by norm_num)).1

/-- **C5**.  With no FRED API key the macro scorer returns, for any
fetched input, the fixed neutral snapshot: composite 5.0, all six
components 5.0, empty indicator set and the fixed unavailable-analysis
string. -/
theorem macro_no_key_neutral :
    (∀ ind, calculate_macro_score false ind = get_default_score) ∧
    get_default_score.macro_score = 5 ∧
    get_default_score.components = ⟨5, 5, 5, 5, 5, 5⟩ ∧
    get_default_score.indicators.isEmpty = true ∧
    get_default_score.analysis = "Macro score unavailable (FRED API key not configured)" ∧
    get_default_score.data_source = "default" := by
  refine ⟨?_, rfl, rfl, rfl, rfl, rfl⟩
  intro ind
  simp [calculate_macro_score]

/-- **C7**.  For price 110, SMA-50 100, SMA-200 90, RSI 50, MACD 1.2,
signal 1.0: the additive technical score reaches 12.0 before clamping
and the returned score is exactly 10.0. -/
theorem technical_scenario_clamps_to_ten :
    technical_score_raw ⟨110, 100, 90, 50, 12/10, 1⟩ = 12
    ∧ calculate_technical_score ⟨110, 100, 90, 50, 12/10, 1⟩ = 10 := by
  have h : technical_score_raw ⟨110, 100, 90, 50, 12/10, 1⟩ = 12 := by
    norm_num [technical_score_raw]
  refine ⟨h, ?_⟩
  unfold calculate_technical_score
  rw [h]
  norm_num

/-- **C10**.  Every macro component score function treats an indicator
value of exactly 0.0 like a missing indicator: a zero fed-funds rate or
treasury yield behaves as absent (falling back or neutralising), and a
present 0.0 observation for inflation, GDP growth, unemployment,
sentiment, or either yield-curve leg produces the neutral 5.0. -/
theorem zero_indicator_like_missing :
    (∀ y, score_interest_rates (some 0) y = score_interest_rates none y) ∧
    (∀ x, score_interest_rates x (some 0) = score_interest_rates x none) ∧
    score_inflation (some 0) = 5 ∧ score_inflation none = 5 ∧
    score_gdp_growth (some 0) = 5 ∧ score_gdp_growth none = 5 ∧
    score_unemployment (some 0) = 5 ∧ score_unemployment none = 5 ∧
    (∀ y, score_yield_curve (some 0) y = score_yield_curve none y) ∧
    (∀ x, score_yield_curve x (some 0) = score_yield_curve x none) ∧
    score_yield_curve (some 4) (some 0) = 5 ∧
    score_consumer_sentiment (some 0) = 5 ∧ score_consumer_sentiment none = 5 := by
  refine ⟨fun y => ?_, fun x => ?_, ?_, ?_, ?_, ?_, ?_, ?_, fun y => ?_, fun x => ?_, ?_, ?_, ?_⟩
  all_goals simp [score_interest_rates, score_inflation, score_gdp_growth,
    score_unemployment, score_yield_curve, score_consumer_sentiment, pyTruthy]

lemma pe_adjust_eq_amended (pe : Option ℚ) : pe_adjust pe = peAdjustAmended pe := by
  cases pe with
  | none => simp [pe_adjust, peAdjustAmended, pyTruthy]
  | some v =>
    by_cases hv : v = 0
    · subst hv
      simp [pe_adjust, peAdjustAmended, pyTruthy]
    · simp [pe_adjust, peAdjustAmended, pyTruthy, hv]

lemma pb_adjust_eq_amended (pb : Option ℚ) : pb_adjust pb = pbAdjustAmended pb := by
  cases pb with
  | none => simp [pb_adjust, pbAdjustAmended, pyTruthy]
  | some v =>
    by_cases hv : v = 0
    · subst hv
      simp [pb_adjust, pbAdjustAmended, pyTruthy]
    · simp [pb_adjust, pbAdjustAmended, pyTruthy, hv]

lemma de_adjust_eq_amended (de : Option ℚ) : de_adjust de = deAdjustAmended de := by
  cases de with
  | none => simp [de_adjust, deAdjustAmended, pyTruthy]
  | some v =>
    by_cases hv : v = 0
    · subst hv
      simp [de_adjust, deAdjustAmended, pyTruthy]
    · simp [de_adjust, deAdjustAmended, pyTruthy, hv]

lemma pm_adjust_eq_amended (pm : Option ℚ) : pm_adjust pm = pmAdjustAmended pm := by
  cases pm with
  | none => simp [pm_adjust, pmAdjustAmended, pyTruthy]
  | some v =>
    by_cases hv : v = 0
    · subst hv
      simp [pm_adjust, pmAdjustAmended, pyTruthy]
    · simp [pm_adjust, pmAdjustAmended, pyTruthy, hv]

/-- **C9** (amended).  The fundamental score is base 5.0 plus the
per-factor adjustments, clamped to [0,10], where a missing **or zero**
ratio contributes no adjustment and the P/E bands are the spec's
(+1.5 on [10,20], else +1.0 on [5,30], else −0.5 when <5 or >50). -/
theorem fundamental_score_formula (f : FundamentalIndicator) :
    calculate_fundamental_score f
      = min (max (5 + peAdjustAmended f.pe_ratio + pbAdjustAmended f.pb_ratio
          + deAdjustAmended f.debt_to_equity + pmAdjustAmended f.profit_margin) 0) 10 := by
  unfold calculate_fundamental_score
  rw [pe_adjust_eq_amended, pb_adjust_eq_amended, de_adjust_eq_amended, pm_adjust_eq_amended]

/-- **C9** counterexample: a present P/E of exactly 0 satisfies
`P/E < 5`, so the claim's rule predicts 5 − 0.5 = 4.5, but the code's
truthiness test skips the factor and returns 5.0. -/
theorem fundamental_pe_zero_no_penalty :
    calculate_fundamental_score ⟨some 0, none, none, none, none⟩ = 5
    ∧ peAdjustClaimed (some 0) = -(1/2)
    ∧ min (max ((5 : ℚ) + peAdjustClaimed (some 0) + 0 + 0 + 0) 0) 10 = 9/2
    ∧ (5 : ℚ) ≠ 9/2 := by
  refine ⟨?_, ?_, ?_, by norm_num⟩
  · norm_num [calculate_fundamental_score, pe_adjust, pb_adjust, de_adjust,
      pm_adjust, pyTruthy]
  · norm_num [peAdjustClaimed]
  · norm_num [peAdjustClaimed]

/-- **C3**.  A rate-limit (429) response is retried, up to 3 total
attempts, with a pause of `1.5 × attempt` seconds after the attempt-th
failure (1-based); exhausting all attempts on 429s surfaces the `None`
result (the spec's `TransientProviderError`), while the first non-429
error status (HTTP ≥ 400) is surfaced immediately as an HTTP error (the
spec's `ProviderError`) with no further attempts. -/
theorem finnhub_get_retry (statuses : ℕ → ℕ) :
    ((∀ a, a < 3 → statuses a = 429) →
      finnhubGet statuses = (.exhaustedNone, [3/2, 3, 9/2])) ∧
    (∀ a s, a < 3 → (∀ b, b < a → statuses b = 429) → statuses a = s →
      s ≠ 429 → 400 ≤ s →
      finnhubGet statuses
        = (.httpError a s, (List.range a).map (fun b => 3/2 * ((b : ℚ) + 1)))) := by
  constructor
  · intro h
    have h0 := h 0 (by norm_num)
    have h1 := h 1 (by norm_num)
    have h2 := h 2 (by norm_num)
    simp only [finnhubGet, getAttempts, h0, h1, h2, if_pos]
    norm_num
  · intro a s ha hb hs hne h400
    interval_cases a
    · simp only [finnhubGet, getAttempts, hs, if_neg hne, if_pos h400]
      simp
    · have h0 := hb 0 (by norm_num)
      have hr1 : List.range 1 = [0] := rfl
      simp only [finnhubGet, getAttempts, h0, hs, if_pos, if_neg hne, if_pos h400, hr1]
      norm_num
    · have h0 := hb 0 (by norm_num)
      have h1 := hb 1 (by norm_num)
      have hr2 : List.range 2 = [0, 1] := rfl
      simp only [finnhubGet, getAttempts, h0, h1, hs, if_pos, if_neg hne, if_pos h400, hr2]
      norm_num

/-- **C3** witness: all three attempts rate-limited. -/
theorem finnhub_get_retry_witness :
    finnhubGet (fun _ => 429) = (.exhaustedNone, [3/2, 3, 9/2]) :=
  (finnhub_get_retry (fun _ => 429)).1 (fun _ _ => rfl)

instance ratLeAntisymm : Std.Antisymm ((· ≤ ·) : ℚ → ℚ → Prop) :=
  ⟨fun h h' => le_antisymm h h'⟩

lemma rat_max?_eq_some_iff {xs : List ℚ} {a : ℚ} :
    xs.max? = some a ↔ a ∈ xs ∧ ∀ b ∈ xs, b ≤ a :=
  List.max?_eq_some_iff (fun _ => le_refl _) max_choice (fun _ _ _ => max_le_iff)

/-- **C4** (amended).  The TTLs are 6 h (technical) and 24 h
(fundamental), and a snapshot is fresh exactly when
`now − snapshot.timestamp ≤ ttl` — the boundary is **inclusive** because
the query filters `calculated_at >= now − ttl`.  A lookup returns the
newest snapshot of age ≤ ttl; only when every snapshot is strictly older
than the TTL does it fetch from the provider. -/
theorem snapshot_ttl_freshness :
    technical_ttl_hours = 6 ∧ fundamental_ttl_hours = 24 ∧
    (∀ now snaps, get_or_fetch_technical now snaps = snapshotLookup 6 now snaps) ∧
    (∀ now snaps, get_or_fetch_fundamental now snaps = snapshotLookup 24 now snaps) ∧
    (∀ ttl now : ℚ, ∀ snaps : List ℚ,
      (snapshotLookup ttl now snaps = .fetched ↔ ∀ ts ∈ snaps, ttl < now - ts) ∧
      (∀ t, snapshotLookup ttl now snaps = .cached t →
        t ∈ snaps ∧ now - t ≤ ttl ∧ ∀ ts ∈ snaps, now - ts ≤ ttl → ts ≤ t)) := by
  refine ⟨rfl, rfl, fun _ _ => rfl, fun _ _ => rfl, ?_⟩
  intro ttl now snaps
  constructor
  · constructor
    · intro h
      intro ts hts
      by_contra hc
      push_neg at hc
      have hmem : ts ∈ snaps.filter (fun ts => decide (now - ttl ≤ ts)) :=
        List.mem_filter.2 ⟨hts, by simpa using by linarith⟩
      have hne : snaps.filter (fun ts => decide (now - ttl ≤ ts)) ≠ [] := by
        intro hnil
        rw [hnil] at hmem
        simp at hmem
      unfold snapshotLookup at h
      rcases hx : (snaps.filter (fun ts => decide (now - ttl ≤ ts))).max? with _ | u
      · exact hne (List.max?_eq_none_iff.1 hx)
      · rw [hx] at h
        simp at h
    · intro hall
      have hnil : snaps.filter (fun ts => decide (now - ttl ≤ ts)) = [] := by
        apply List.filter_eq_nil_iff.2
        intro ts hts
        have := hall ts hts
        simp only [decide_eq_true_eq]
        intro hle
        linarith
      unfold snapshotLookup
      rw [hnil]
      rfl
  · intro t h
    unfold snapshotLookup at h
    rcases hx : (snaps.filter (fun ts => decide (now - ttl ≤ ts))).max? with _ | u
    · rw [hx] at h
      simp at h
    · rw [hx] at h
      simp only [CacheOutcome.cached.injEq] at h
      subst h
      obtain ⟨hmem, hmax⟩ := rat_max?_eq_some_iff.1 hx
      obtain ⟨hin, hfresh⟩ := List.mem_filter.1 hmem
      simp only [decide_eq_true_eq] at hfresh
      refine ⟨hin, by linarith, ?_⟩
      intro ts hts hfr
      exact hmax ts (List.mem_filter.2 ⟨hts, by simpa using by linarith⟩)

/-- **C4** witness: every snapshot strictly older than the TTL → fetch. -/
theorem snapshot_ttl_freshness_witness :
    snapshotLookup 6 7 [0] = CacheOutcome.fetched :=
  ((snapshot_ttl_freshness.2.2.2.2 6 7 [0]).1).2 (by
    intro ts hts
    simp only [List.mem_singleton] at hts
    subst hts
    norm_num)

/-- **C4** counterexample: a snapshot of age exactly equal to the TTL
(now = 6 h, timestamp 0, TTL 6 h) is returned from the cache, while the
claim's strict freshness test `now − ts < ttl` calls it stale and
predicts a provider fetch. -/
theorem snapshot_ttl_boundary_cx :
    (6 : ℚ) - 0 = technical_ttl_hours
    ∧ get_or_fetch_technical 6 [0] = CacheOutcome.cached 0
    ∧ get_or_fetch_technical 6 [0] ≠ CacheOutcome.fetched := by
  have hfil : ([0] : List ℚ).filter (fun ts => decide ((6:ℚ) - technical_ttl_hours ≤ ts)) = [0] := by
    simp [technical_ttl_hours]
  have hc : get_or_fetch_technical 6 [0] = CacheOutcome.cached 0 := by
    unfold get_or_fetch_technical snapshotLookup
    rw [hfil]
    rfl
  refine ⟨by norm_num [technical_ttl_hours], hc, ?_⟩
  rw [hc]
  simp

lemma zip_deltas_pos :
    ∀ (p : List ℚ), List.Chain' (· < ·) p →
      ∀ x ∈ List.zipWith (fun next prev => next - prev) p.tail p, 0 < x := by
  intro p
  induction p with
  | nil =>
    intro _ x hx
    simp at hx
  | cons a rest ih =>
    intro hch x hx
    cases rest with
    | nil => simp at hx
    | cons b t =>
      rw [List.tail_cons, List.zipWith_cons_cons] at hx
      obtain ⟨hab, hch'⟩ := List.chain'_cons.1 hch
      rcases List.mem_cons.1 hx with rfl | hx'
      · linarith
      · exact ih hch' x hx'

lemma list_sum_pos_of_mem :
    ∀ (l : List ℚ), (∀ x ∈ l, 0 ≤ x) → ∀ y ∈ l, 0 < y → 0 < l.sum := by
  intro l
  induction l with
  | nil =>
    intro _ y hy
    simp at hy
  | cons a t ih =>
    intro h0 y hy hypos
    rcases List.mem_cons.1 hy with rfl | hyt
    · have ht : 0 ≤ t.sum := List.sum_nonneg (fun x hx => h0 x (List.mem_cons_of_mem _ hx))
      rw [List.sum_cons]
      linarith
    · have ht := ih (fun x hx => h0 x (List.mem_cons_of_mem _ hx)) y hyt hypos
      have ha := h0 a (List.mem_cons_self _ _)
      rw [List.sum_cons]
      linarith

lemma window_has_pos (G : List ℚ) (hG : ∀ y ∈ G, 0 < y) (hlen : 13 ≤ G.length) :
    ∃ x ∈ (0 :: G).drop ((0 :: G).length - 14), 0 < x := by
  rcases Nat.lt_or_ge G.length 14 with hm | hm
  · have h0 : (0 :: G).length - 14 = 0 := by
      simp only [List.length_cons]
      omega
    rw [h0, List.drop_zero]
    obtain ⟨y, hy⟩ := List.exists_mem_of_ne_nil G (by
      intro h
      rw [h] at hlen
      simp at hlen)
    exact ⟨y, List.mem_cons_of_mem _ hy, hG y hy⟩
  · have h1 : (0 :: G).length - 14 = (G.length - 14) + 1 := by
      simp only [List.length_cons]
      omega
    rw [h1, List.drop_succ_cons]
    have hdl : (G.drop (G.length - 14)).length = 14 := by
      rw [List.length_drop]
      omega
    obtain ⟨y, hy⟩ := List.exists_mem_of_ne_nil (G.drop (G.length - 14)) (by
      intro h
      rw [h] at hdl
      simp at hdl)
    exact ⟨y, hy, hG y (List.drop_subset _ _ hy)⟩

/-- **C8**.  A strictly increasing close series of length ≥ 14 has a
14-period average loss of exactly zero and a positive average gain, so
`rs = ∞` and the RSI computation returns exactly 100; and whenever the
RSI series ends in NaN the function returns the neutral fallback 50. -/
theorem rsi_increasing_is_100 :
    (∀ prices : List ℚ, List.Chain' (· < ·) prices → 14 ≤ prices.length →
      calculate_rsi prices = 100) ∧
    (∀ p, rsiLast p = none → calculate_rsi p = 50) := by
  constructor
  · intro prices hmono hlen
    obtain ⟨a, rest, rfl⟩ : ∃ a rest, prices = a :: rest := by
      cases prices with
      | nil => simp at hlen
      | cons a rest => exact ⟨a, rest, rfl⟩
    have hrest : 13 ≤ rest.length := by
      simp only [List.length_cons] at hlen
      omega
    have hdel : deltas (a :: rest)
        = 0 :: List.zipWith (fun next prev => next - prev) rest (a :: rest) := rfl
    have hdspos : ∀ x ∈ List.zipWith (fun next prev => next - prev) rest (a :: rest), 0 < x :=
      fun x hx => zip_deltas_pos (a :: rest) hmono x hx
    have hdslen : (List.zipWith (fun next prev => next - prev) rest (a :: rest)).length
        = rest.length := by
      rw [List.length_zipWith, List.length_cons]
      omega
    -- the loss series is identically zero
    have hloss_eq : lossList (a :: rest)
        = 0 :: (List.zipWith (fun next prev => next - prev) rest (a :: rest)).map
            (fun d => if d < 0 then -d else 0) := by
      unfold lossList
      rw [hdel, List.map_cons]
      norm_num
    have hloss0 : ∀ x ∈ lossList (a :: rest), x = 0 := by
      intro x hx
      rw [hloss_eq] at hx
      rcases List.mem_cons.1 hx with rfl | hx'
      · rfl
      · rcases List.mem_map.1 hx' with ⟨d, hd, rfl⟩
        have hdp := hdspos d hd
        simp only [if_neg (not_lt.2 (le_of_lt hdp))]
    have hlosslen : (lossList (a :: rest)).length = rest.length + 1 := by
      rw [hloss_eq, List.length_cons, List.length_map, hdslen]
    have hmean_loss : rollMeanLast 14 (lossList (a :: rest)) = some 0 := by
      unfold rollMeanLast
      rw [if_neg (by rw [hlosslen]; omega)]
      have hz : ((lossList (a :: rest)).drop ((lossList (a :: rest)).length - 14)).sum = 0 :=
        List.sum_eq_zero (fun x hx => hloss0 x (List.drop_subset _ _ hx))
      rw [hz]
      norm_num
    -- the gain series is nonnegative with a positive entry in the window
    have hgain_eq : gainsList (a :: rest)
        = 0 :: (List.zipWith (fun next prev => next - prev) rest (a :: rest)).map
            (fun d => if 0 < d then d else 0) := by
      unfold gainsList
      rw [hdel, List.map_cons]
      norm_num
    have hGpos : ∀ y ∈ (List.zipWith (fun next prev => next - prev) rest (a :: rest)).map
        (fun d => if 0 < d then d else 0), 0 < y := by
      intro y hy
      rcases List.mem_map.1 hy with ⟨d, hd, rfl⟩
      have hdp := hdspos d hd
      simpa only [if_pos hdp] using hdp
    have hGlen : ((List.zipWith (fun next prev => next - prev) rest (a :: rest)).map
        (fun d => if 0 < d then d else 0)).length = rest.length := by
      rw [List.length_map, hdslen]
    have hmean_gain : ∃ g, rollMeanLast 14 (gainsList (a :: rest)) = some g ∧ 0 < g := by
      rw [hgain_eq]
      unfold rollMeanLast
      rw [if_neg (by rw [List.length_cons, hGlen]; omega)]
      refine ⟨_, rfl, ?_⟩
      obtain ⟨y, hy, hypos⟩ := window_has_pos _ hGpos (by rw [hGlen]; omega)
      have hnn : ∀ x ∈ (0 :: (List.zipWith (fun next prev => next - prev) rest (a :: rest)).map
          (fun d => if 0 < d then d else 0)).drop
          ((0 :: (List.zipWith (fun next prev => next - prev) rest (a :: rest)).map
            (fun d => if 0 < d then d else 0)).length - 14), 0 ≤ x := by
        intro x hx
        rcases List.mem_cons.1 (List.drop_subset _ _ hx) with rfl | hx'
        · exact le_refl 0
        · exact le_of_lt (hGpos x hx')
      have hsum := list_sum_pos_of_mem _ hnn y hy hypos
      exact div_pos hsum (by norm_num)
    obtain ⟨g, hg, hgpos⟩ := hmean_gain
    unfold calculate_rsi
    simp only [rsiLast, hg, hmean_loss]
    simp [hgpos.ne']
  · intro p hp
    unfold calculate_rsi
    rw [hp]
    rfl

/-- **C8** witness: the strictly increasing series 0,1,…,13. -/
theorem rsi_increasing_is_100_witness :
    calculate_rsi [0, 1, 2, 3, 4, 5, 6, 7, 8, 9, 10, 11, 12, 13] = 100 :=
  rsi_increasing_is_100.1 _ (by
    simp only [List.chain'_cons, List.chain'_singleton, and_true]
    norm_num) (by norm_num)

lemma pruneWindow_no_old {now : ℚ} {q : List ℚ} (hq : ∀ x ∈ q, now - x ≤ 60) :
    pruneWindow now q = q := by
  cases q with
  | nil => rfl
  | cons t rest =>
    unfold pruneWindow
    rw [if_neg (not_lt.2 (hq t (List.mem_cons_self _ _)))]

lemma runThrottle_no_sleep (maxPM : ℕ) (t0 : ℚ) :
    ∀ (ts q : List ℚ), q.length + ts.length ≤ maxPM →
      (∀ x ∈ q, t0 ≤ x ∧ x ≤ t0 + 1) → (∀ x ∈ ts, t0 ≤ x ∧ x ≤ t0 + 1) →
      runThrottle maxPM q ts = (q ++ ts, List.replicate ts.length 0) := by
  intro ts
  induction ts with
  | nil =>
    intro q _ _ _
    simp [runThrottle]
  | cons t rest ih =>
    intro q hlen hq hts
    have hqprune : pruneWindow t q = q := pruneWindow_no_old (fun x hx => by
      have h1 := (hq x hx).1
      have h2 := (hts t (List.mem_cons_self _ _)).2
      linarith)
    have hql : q.length < maxPM := by
      simp only [List.length_cons] at hlen
      omega
    have hstep : throttleStep maxPM q t = (q ++ [t], 0) := by
      unfold throttleStep
      rw [hqprune, if_neg (by omega)]
    have hrec := ih (q ++ [t]) (by simp at hlen ⊢; omega)
      (by
        intro x hx
        rcases List.mem_append.1 hx with hx' | hx'
        · exact hq x hx'
        · rcases List.mem_singleton.1 hx' with rfl
          exact hts x (List.mem_cons_self _ _))
      (fun x hx => hts x (List.mem_cons_of_mem _ hx))
    unfold runThrottle
    rw [hstep]
    dsimp only
    rw [hrec]
    simp [List.append_assoc, List.replicate_succ]


lemma runThrottle_append (maxPM : ℕ) :
    ∀ (l1 l2 q : List ℚ),
      runThrottle maxPM q (l1 ++ l2)
        = ((runThrottle maxPM (runThrottle maxPM q l1).1 l2).1,
           (runThrottle maxPM q l1).2
             ++ (runThrottle maxPM (runThrottle maxPM q l1).1 l2).2) := by
  intro l1
  induction l1 with
  | nil =>
    intro l2 q
    simp [runThrottle]
  | cons t ts ih =>
    intro l2 q
    simp only [List.cons_append, runThrottle, List.append_eq]
    rw [ih]

/-- **C6**.  If `maxPerMinute` calls arrive within one second of the
first call at `t0` and one more call arrives at `tLast ≤ t0 + 1`, the
first `maxPerMinute` calls sleep 0 and fill the window with exactly
`maxPerMinute` un-expired entries, and the extra call is delayed by
`60 − (tLast − t0) + 0.05` seconds — at least 60 seconds minus the
elapsed time since the first call in the window. -/
theorem rate_limiter_delays_last_call (maxPM : ℕ) (t0 tLast : ℚ) (rest : List ℚ)
    (hlen : (t0 :: rest).length = maxPM)
    (hts : ∀ x ∈ t0 :: rest, t0 ≤ x ∧ x ≤ t0 + 1)
    (hl0 : t0 ≤ tLast) (hl1 : tLast ≤ t0 + 1) :
    runThrottle maxPM [] ((t0 :: rest) ++ [tLast])
      = ((t0 :: rest) ++ [tLast + (60 - (tLast - t0) + 1/20)],
         List.replicate maxPM 0 ++ [60 - (tLast - t0) + 1/20])
    ∧ 60 - (tLast - t0) ≤ 60 - (tLast - t0) + 1/20 := by
  have hfirst : runThrottle maxPM [] (t0 :: rest) = (t0 :: rest, List.replicate maxPM 0) := by
    have h := runThrottle_no_sleep maxPM t0 (t0 :: rest) []
      (by simp [hlen]) (by intro x hx; simp at hx) hts
    simpa [hlen] using h
  have hprune : pruneWindow tLast (t0 :: rest) = t0 :: rest :=
    pruneWindow_no_old (fun x hx => by
      have h1 := (hts x hx).1
      linarith)
  have hsleep : max (60 - (tLast - (t0 :: rest).headD 0) + 1/20) 0
      = 60 - (tLast - t0) + 1/20 := by
    rw [List.headD_cons]
    exact max_eq_left (by linarith)
  have hstep : throttleStep maxPM (t0 :: rest) tLast
      = ((t0 :: rest) ++ [tLast + (60 - (tLast - t0) + 1/20)],
         60 - (tLast - t0) + 1/20) := by
    unfold throttleStep
    rw [hprune, if_pos (le_of_eq hlen.symm)]
    dsimp only
    rw [hsleep]
  refine ⟨?_, by linarith⟩
  rw [runThrottle_append, hfirst]
  dsimp only
  simp only [runThrottle, hstep]

/-- **C6** witness: limit 1, first call at t = 0, second call at t = 1. -/
theorem rate_limiter_delays_last_call_witness :
    runThrottle 1 [] (((0 : ℚ) :: []) ++ [1])
      = (((0 : ℚ) :: []) ++ [1 + (60 - (1 - 0) + 1/20)],
         List.replicate 1 0 ++ [60 - (1 - 0) + 1/20])
    ∧ (60 : ℚ) - (1 - 0) ≤ 60 - (1 - 0) + 1/20 :=
  rate_limiter_delays_last_call 1 0 1 [] rfl
    (by
      intro x hx
      simp only [List.mem_singleton] at hx
      subst hx
      norm_num)
    (by norm_num) (by norm_num)
